import Mathlib

/-!
# Interview session service: session engine, token service and request gate

A shallow embedding of the Go sources `main.go`, `auth/auth.go` and
`auth/middleware.go`.

Conventions of the embedding:

* `uint8` values are natural numbers; every `uint8` operation of the source
  is written with an explicit `% 256`.
* A Go run-time panic (integer division by zero, nil dereference) is the
  `Go.panic` outcome; a Go `error` value is its message.
* `time.Time` instants are integers (nanoseconds on the clock's time line);
  `time.Now()` is a parameter of the function that reads it. `GenerateToken`
  takes its three readings as three parameters, in the order of the reads;
  the validating functions are given one instant `now` per call.
* Request headers are keyed by their canonical names, as `net/http` stores them.
* The third-party packages (`golang-jwt`, `uuid`, `echo` binding, the
  database driver) are parameters of the functions that call them.
-/

namespace Interview

/-! ## Outcomes of Go code -/

/-- Run-time panics that the embedded code can raise. -/
inductive Panic where
  | divideByZero
  | nilDereference
  deriving DecidableEq, Repr

/-- Outcome of running a Go function: it returns a value or it panics. -/
inductive Go (α : Type) where
  | ret (v : α)
  | panic (p : Panic)
  deriving DecidableEq, Repr

/-! ## Data model (`main.go`, lines 66-97 and 286-295) -/

structure Candidate where
  ID : String
  Name : String
  Email : String
  deriving DecidableEq, Repr

/-- Interviewer entry; `Rating` is a `uint8` in the source. -/
structure Interviewer where
  ID : String
  Name : String
  Email : String
  Rating : Nat
  Feedback : String
  InterviewNotes : String
  deriving DecidableEq, Repr

structure SessionMetadata where
  InterviewTime : String
  Duration : Int
  InterviewType : String
  InterviewStatus : String
  InterviewLink : String
  InterviewDate : String
  InterviewTimeZone : String
  deriving DecidableEq, Repr

/-- Session record. The unexported `ctx` field is `context.Background()` wherever the
source builds a session; its `Done` signal is an input of `Worker.Start`. -/
structure Session where
  ID : String
  Candidate : Candidate
  Interviewer : List Interviewer
  Metadata : SessionMetadata
  deriving DecidableEq, Repr

/-- The response projection of a session; a nil slice is the empty list. -/
structure SessionView where
  ID : String
  Metadata : SessionMetadata
  Feedback : List Interviewer
  Notes : String
  Rating : Nat
  deriving DecidableEq, Repr

/-! ## `calculateAverageRating` (`main.go`, lines 99-108) -/

/-- The loop `for _, interviewer := range interviewers { total += interviewer.Rating }`
on a `uint8` accumulator. -/
def sumRatings (interviewers : List Interviewer) : Nat :=
  interviewers.foldl (fun total interviewer => (total + interviewer.Rating) % 256) 0

/-- Embedding of `calculateAverageRating`: the accumulator and the divisor
`uint8(len(interviewers))` are 8-bit, and an integer division by zero panics. -/
def calculateAverageRating (interviewers : List Interviewer) : Go Nat :=
  if interviewers.length = 0 then
    .ret 0
  else
    let total := sumRatings interviewers
    let divisor := interviewers.length % 256
    if divisor = 0 then .panic .divideByZero else .ret (total / divisor)

/-! ## `Session.ToView` (`main.go`, lines 297-318) -/

/-- The loop that builds `feedback` by appending `Interviewer{ID, Feedback}`. -/
def reduceFeedback (interviewers : List Interviewer) : List Interviewer :=
  interviewers.foldl
    (fun feedback interviewer =>
      feedback ++ [{ ID := interviewer.ID, Name := "", Email := "", Rating := 0,
                     Feedback := interviewer.Feedback, InterviewNotes := "" }])
    []

/-- Embedding of `Session.ToView`. In the `"interviewer"` case the source calls
`calculateAverageRating(s.Interviewer)` as a statement: the call is evaluated (so its
panic propagates) and its result is dropped. -/
def Session.ToView (s : Session) (userRole : String) : Go SessionView :=
  let view : SessionView :=
    { ID := s.ID, Metadata := s.Metadata, Feedback := [], Notes := "", Rating := 0 }
  if userRole = "interviewer" then
    let feedback := reduceFeedback s.Interviewer
    let view := { view with Feedback := feedback }
    match calculateAverageRating s.Interviewer with
    | .panic p => .panic p
    | .ret _ => .ret view
  else
    .ret view

/-! ## Token service (`auth/auth.go`) -/

/-- Instants of `time.Time`, in nanoseconds. -/
abbrev Time := Int

/-- The duration `time.Hour`, in nanoseconds. -/
def Hour : Int := 3600 * 1000000000

/-- Comparison `t.After(u)` of `time.Time`. -/
def Time.After (t u : Time) : Bool := decide ((u : Int) < (t : Int))

/-- The `jwt.RegisteredClaims` fields; a `*jwt.NumericDate` is an optional instant. -/
structure RegisteredClaims where
  Issuer : String
  Subject : String
  Audience : List String
  ExpiresAt : Option Time
  NotBefore : Option Time
  IssuedAt : Option Time
  ID : String
  deriving DecidableEq, Repr

/-- The claims type of the service, embedding `jwt.RegisteredClaims`. -/
structure UserClaims extends RegisteredClaims where
  UserID : String
  Email : String
  Name : String
  Role : String
  deriving DecidableEq, Repr

/-- Embedding of `UserClaims.Valid` (lines 48-56); `none` is the nil error. -/
def UserClaims.Valid (uc : UserClaims) (now : Time) : Option String :=
  match uc.ExpiresAt with
  | some exp =>
    if !Time.After exp now then some "token has expired"
    else
      match uc.NotBefore with
      | some nbf => if Time.After nbf now then some "token is not yet valid" else none
      | none => none
  | none =>
    match uc.NotBefore with
    | some nbf => if Time.After nbf now then some "token is not yet valid" else none
    | none => none

/-- Signing methods of `golang-jwt`: the HMAC family (`*jwt.SigningMethodHMAC`, by
algorithm name) and every other method. -/
inductive SigningMethod where
  | HMAC (alg : String)
  | Other (alg : String)
  deriving DecidableEq, Repr

/-- The value `jwt.SigningMethodHS256`. -/
def SigningMethodHS256 : SigningMethod := .HMAC "HS256"

/-- Algorithm name of a signing method, the `alg` header of its tokens. -/
def SigningMethod.Alg : SigningMethod → String
  | .HMAC alg => alg
  | .Other alg => alg

/-- The parts of a parsed `jwt.Token` that `ValidateToken` reads. `ParseWithClaims`
decodes into the `*UserClaims` it is given, so `Claims` always has that type. -/
structure Token where
  Method : SigningMethod
  Claims : UserClaims
  Valid : Bool
  deriving DecidableEq, Repr

/-- The operations of the `golang-jwt` package that `auth.go` calls, as parameters.
`ParseWithClaims` receives the token string, the key function and the instant at which
the package validates the time claims. -/
structure JWT where
  NewNumericDate : Time → Time
  SignedString : SigningMethod → UserClaims → String → Except String String
  ParseWithClaims : String → (Token → Except String String) → Time → Except String Token

/-- The key function that `ValidateToken` passes to `jwt.ParseWithClaims`
(lines 64-69). -/
def keyFunc (secretKey : String) (token : Token) : Except String String :=
  match token.Method with
  | .HMAC _ => .ok secretKey
  | .Other alg => .error ("unexpected signing method: " ++ alg)

/-- The expiry re-check of `ValidateToken` (lines 80-89). `GetExpirationTime` returns
`uc.ExpiresAt` with a nil error, and the result is dereferenced without a nil check. -/
def ValidateToken.expiryCheck (claims : UserClaims) (now : Time) :
    Go (Except String UserClaims) :=
  match claims.ExpiresAt with
  | none => .panic .nilDereference
  | some expirationTime =>
    if !Time.After expirationTime now then .ret (.error "token expired")
    else .ret (.ok claims)

/-- Embedding of `ValidateToken` (lines 58-90). `secretKey` is
`os.Getenv("JWT_SECRET_KEY")` and `now` the clock reading of the call. -/
def ValidateToken (jwt : JWT) (secretKey : String) (now : Time) (tokenString : String) :
    Go (Except String UserClaims) :=
  if secretKey = "" then
    .ret (.error "JWT_SECRET_KEY not set")
  else
    match jwt.ParseWithClaims tokenString (keyFunc secretKey) now with
    | .error err => .ret (.error ("failed to parse token: " ++ err))
    | .ok token =>
      if !token.Valid then
        .ret (.error "invalid token claims")
      else
        ValidateToken.expiryCheck token.Claims now

/-- The `echo.HTTPError` values returned by the filters. -/
structure HTTPError where
  Code : Nat
  Message : String
  deriving DecidableEq, Repr

def ErrUnauthorized : HTTPError := ⟨401, "Unauthorized"⟩

def ErrForbidden : HTTPError := ⟨403, "Forbidden"⟩

/-- Values held in the request scope (`interface{}`): a `*UserClaims`, or a value of
another dynamic type. The only writer of a `*UserClaims` is `AuthMiddleware`, which
stores the non-nil result of `ValidateToken`. -/
inductive Value where
  | userClaims (u : UserClaims)
  | other (v : String)
  deriving DecidableEq, Repr

/-- Response payloads handed to `c.JSON`. -/
inductive Payload where
  | object (fields : List (String × String))
  | text (s : String)
  | session (s : Session)
  deriving DecidableEq, Repr

structure Response where
  Status : Nat
  Body : Payload
  deriving DecidableEq, Repr

/-- The `candidate` object of a request body: the keys it carries. -/
structure CandidateFields where
  ID : Option String
  Name : Option String
  Email : Option String
  deriving DecidableEq, Repr

/-- The `metadata` object of a request body: the keys it carries. -/
structure MetadataFields where
  InterviewTime : Option String
  Duration : Option Int
  InterviewType : Option String
  InterviewStatus : Option String
  InterviewLink : Option String
  InterviewDate : Option String
  InterviewTimeZone : Option String
  deriving DecidableEq, Repr

/-- A JSON object sent as the body of a request, read along the `json` tags of
`Session`: each key is present (`some`) or absent. -/
structure SessionFields where
  ID : Option String
  Candidate : Option CandidateFields
  Interviewer : Option (List Interviewer)
  Metadata : Option MetadataFields
  deriving DecidableEq, Repr

/-- What `c.Bind` finds in the request: no body, a body it cannot decode, or a JSON
object. -/
inductive RequestBody where
  | empty
  | malformed (err : String)
  | json (fields : SessionFields)
  deriving DecidableEq, Repr

/-- The parts of `echo.Context` that the filters and handlers use: the request header
and body, the request scope of `c.Get`/`c.Set`, and the response written so far. -/
structure Context where
  Header : List (String × String)
  Body : RequestBody
  Store : List (String × Value)
  Response : Option Response
  deriving DecidableEq, Repr

/-- The call `c.Request().Header.Get(key)`: the value, or `""` when the key is absent. -/
def Context.HeaderGet (c : Context) (key : String) : String :=
  (c.Header.lookup key).getD ""

/-- The call `c.Get(key)`: `none` is the nil interface. -/
def Context.Get (c : Context) (key : String) : Option Value :=
  c.Store.lookup key

/-- The call `c.Set(key, val)`. -/
def Context.Set (c : Context) (key : String) (val : Value) : Context :=
  { c with Store := (key, val) :: c.Store.filter (fun kv => kv.1 != key) }

/-- An `echo.HandlerFunc`: it may write to the context, and returns an error or nil. -/
abbrev HandlerFunc := Context → Go (Context × Option HTTPError)

abbrev MiddlewareFunc := HandlerFunc → HandlerFunc

/-- The call `c.JSON(code, body)`: the response is written and the error is nil. -/
def Context.JSON (c : Context) (code : Nat) (body : Payload) : Context × Option HTTPError :=
  ({ c with Response := some ⟨code, body⟩ }, none)

/-- The call `strings.TrimPrefix(s, pre)`. -/
def TrimPrefix (s pre : String) : String :=
  if pre.data.isPrefixOf s.data then ⟨s.data.drop pre.data.length⟩ else s

/-- Embedding of `AuthMiddleware` (lines 12-32). -/
def AuthMiddleware (jwt : JWT) (secretKey : String) (now : Time) : MiddlewareFunc :=
  fun next c =>
    let token := c.HeaderGet "Authorization"
    if token = "" then
      .ret (c.JSON 401 (.object [("error", "No authorization token provided")]))
    else
      let tokenString := TrimPrefix token "Bearer "
      match ValidateToken jwt secretKey now tokenString with
      | .panic p => .panic p
      | .ret (.error _) => .ret (c, some ErrUnauthorized)
      | .ret (.ok claims) => next (c.Set "user" (.userClaims claims))

/-- The loop `for _, role := range roles` of `RequireRole`. -/
def RequireRole.loop (user : UserClaims) (next : HandlerFunc) (c : Context) :
    List String → Go (Context × Option HTTPError)
  | [] => .ret (c, some ErrForbidden)
  | role :: roles => if user.Role = role then next c else RequireRole.loop user next c roles

/-- Embedding of `RequireRole` (lines 35-52). -/
def RequireRole (roles : List String) : MiddlewareFunc :=
  fun next c =>
    match c.Get "user" with
    | some (.userClaims user) => RequireRole.loop user next c roles
    | _ => .ret (c, some ErrUnauthorized)

/-! ## Session creation (`main.go`, lines 110-166) -/

/-- Decoding of a `candidate` object into an existing `Candidate`: keys that are
present overwrite, the other fields keep their value. -/
def CandidateFields.decodeInto (f : CandidateFields) (c : Candidate) : Candidate :=
  { ID := f.ID.getD c.ID, Name := f.Name.getD c.Name, Email := f.Email.getD c.Email }

/-- Decoding of a `metadata` object into an existing `SessionMetadata`. -/
def MetadataFields.decodeInto (f : MetadataFields) (m : SessionMetadata) : SessionMetadata :=
  { InterviewTime := f.InterviewTime.getD m.InterviewTime
    Duration := f.Duration.getD m.Duration
    InterviewType := f.InterviewType.getD m.InterviewType
    InterviewStatus := f.InterviewStatus.getD m.InterviewStatus
    InterviewLink := f.InterviewLink.getD m.InterviewLink
    InterviewDate := f.InterviewDate.getD m.InterviewDate
    InterviewTimeZone := f.InterviewTimeZone.getD m.InterviewTimeZone }

/-- Decoding of a request object into an existing `Session`, as `encoding/json` does
for a struct target. -/
def SessionFields.decodeInto (f : SessionFields) (s : Session) : Session :=
  { ID := f.ID.getD s.ID
    Candidate := match f.Candidate with
      | some c => c.decodeInto s.Candidate
      | none => s.Candidate
    Interviewer := f.Interviewer.getD s.Interviewer
    Metadata := match f.Metadata with
      | some m => m.decodeInto s.Metadata
      | none => s.Metadata }

/-- The call `c.Bind(&session)` on a route without path parameters. -/
def Context.Bind (c : Context) (session : Session) : Except String Session :=
  match c.Body with
  | .empty => .ok session
  | .malformed err => .error err
  | .json fields => .ok (fields.decodeInto session)

/-- The SQL statements of `main.go`. -/
inductive Statement where
  | insertSession
  | updateSessionStatus
  deriving DecidableEq, Repr

inductive SqlArg where
  | text (s : String)
  | int (i : Int)
  deriving DecidableEq, Repr

/-- A request sent through `database.Query`. -/
structure DbRequest where
  query : Statement
  args : List SqlArg
  deriving DecidableEq, Repr

/-- What a run of `createSession` did: the context with the response written, the error
returned, the requests sent to the database, and the session handed to
`go worker.Start(&session)` when a worker was started. -/
structure Created where
  ctx : Context
  err : Option HTTPError
  requests : List DbRequest
  worker : Option Session
  deriving DecidableEq, Repr

/-- The session that `createSession` builds before binding (lines 115-129). -/
def newSession (sessionID nowRFC3339 today : String) : Session :=
  { ID := sessionID
    Interviewer := []
    Candidate := { ID := "", Name := "", Email := "" }
    Metadata :=
      { InterviewTime := nowRFC3339
        Duration := 180
        InterviewTimeZone := "UTC"
        InterviewStatus := "created"
        InterviewType := "technical"
        InterviewLink := "http://localhost:8080/api/session/" ++ sessionID
        InterviewDate := today } }

/-- The arguments of the `INSERT INTO sessions` statement (lines 143-155). -/
def insertArgs (session : Session) (rating : Nat) : List SqlArg :=
  [ .text session.ID, .text session.Candidate.Name, .text session.Candidate.Email,
    .int rating, .text session.Metadata.InterviewTime, .int session.Metadata.Duration,
    .text session.Metadata.InterviewType, .text session.Metadata.InterviewStatus,
    .text session.Metadata.InterviewLink, .text session.Metadata.InterviewDate,
    .text session.Metadata.InterviewTimeZone ]

/-- Embedding of `createSession`. `sessionID` is `uuid.New().String()`, `nowRFC3339` and
`today` are the two formatted clock readings, and `query` is `database.Query` (its
error, `none` when the statement succeeds). -/
def createSession (sessionID nowRFC3339 today : String) (query : DbRequest → Option String)
    (c : Context) : Go Created :=
  let session := newSession sessionID nowRFC3339 today
  match c.Bind session with
  | .error err =>
    let r := c.JSON 400 (.text err)
    .ret { ctx := r.1, err := r.2, requests := [], worker := none }
  | .ok session =>
    match calculateAverageRating session.Interviewer with
    | .panic p => .panic p
    | .ret rating =>
      let req : DbRequest := ⟨.insertSession, insertArgs session rating⟩
      match query req with
      | some err =>
        let r := c.JSON 500 (.text err)
        .ret { ctx := r.1, err := r.2, requests := [req], worker := none }
      | none =>
        let r := c.JSON 201 (.session session)
        .ret { ctx := r.1, err := r.2, requests := [req], worker := some session }

/-! ## Lifecycle worker (`main.go`, lines 238-284) -/

/-- The case of the `select` in `Worker.Start` that fires: the timer of
`s.Metadata.Duration` minutes, or `s.ctx.Done()`. -/
inductive Signal where
  | timer
  | done
  deriving DecidableEq, Repr

/-- Embedding of `Worker.updateSessionStatus`: the request it sends. -/
def Worker.updateSessionStatus (sessionID status : String) : DbRequest :=
  ⟨.updateSessionStatus, [.text status, .text sessionID]⟩

/-- Embedding of `Worker.Start`, as a function of the case that fires: the session
after the assignment to `s.Metadata.InterviewStatus`, and the requests sent to the
database before the function returns. An error of the update is only logged, and
`s.Close()` finds no cancel function in `context.Background()` and only logs. -/
def Worker.Start (s : Session) : Signal → Session × List DbRequest
  | .timer =>
    ({ s with Metadata := { s.Metadata with InterviewStatus := "completed" } },
     [Worker.updateSessionStatus s.ID "completed"])
  | .done =>
    ({ s with Metadata := { s.Metadata with InterviewStatus := "canceled" } },
     [Worker.updateSessionStatus s.ID "canceled"])

/-- A worker goroutine and the session it holds: `running` is true from
`go worker.Start(&session)` until `Start` returns. -/
structure WorkerState where
  session : Session
  running : Bool
  requests : List DbRequest
  deriving DecidableEq, Repr

/-- The statement `go worker.Start(&session)`. -/
def WorkerState.spawn (s : Session) : WorkerState :=
  { session := s, running := true, requests := [] }

/-- One event of the worker: a running worker executes the case that fires and
returns; a worker that has returned takes no further step. -/
def WorkerState.step (w : WorkerState) (sig : Signal) : WorkerState :=
  if w.running then
    let r := Worker.Start w.session sig
    { session := r.1, running := false, requests := w.requests ++ r.2 }
  else
    w

/-- A sequence of events delivered to a worker. -/
def WorkerState.run (w : WorkerState) (sigs : List Signal) : WorkerState :=
  sigs.foldl WorkerState.step w

/-! ## Example values -/

/-- An interviewer entry with the given id and rating. -/
def rated (id : String) (rating : Nat) : Interviewer :=
  { ID := id, Name := "", Email := "", Rating := rating, Feedback := "", InterviewNotes := "" }

/-- A session with the given interviewer entries. -/
def sampleSession (interviewers : List Interviewer) : Session :=
  { (newSession "s-1" "2024-01-01T10:00:00Z" "2024-01-01") with Interviewer := interviewers }

/-- Claims with the given validity window. -/
def windowClaims (nbf exp : Time) : UserClaims :=
  { UserID := "u-1", Email := "dev@example.com", Name := "Dev User", Role := "interviewer"
    Issuer := "interview-system", Subject := "", Audience := [], ID := ""
    ExpiresAt := some exp, NotBefore := some nbf, IssuedAt := some nbf }

/-- A request context with the given header and scope. -/
def sampleContext (header : List (String × String)) (store : List (String × Value)) :
    Context :=
  { Header := header, Body := .empty, Store := store, Response := none }

/-- A one-token instance of the package operations: it signs the claims
`windowClaims 100 (100 + 24 * Hour)` under the key `"s3cret"` as `"sample.token"`, and
parses that token back, asking the key function for the key and checking the window. -/
def sampleJWT : JWT :=
  { NewNumericDate := fun t => t
    SignedString := fun method claims key =>
      if method = SigningMethodHS256 ∧ claims = windowClaims 100 (100 + 24 * Hour)
          ∧ key = "s3cret" then
        .ok "sample.token"
      else
        .error "key is invalid"
    ParseWithClaims := fun tokenString kf now =>
      if tokenString = "sample.token" then
        match kf ⟨SigningMethodHS256, windowClaims 100 (100 + 24 * Hour), false⟩ with
        | .error err => .error err
        | .ok key =>
          if key = "s3cret" then
            if (100 : Int) ≤ now ∧ now < 100 + 24 * Hour then
              .ok ⟨SigningMethodHS256, windowClaims 100 (100 + 24 * Hour), true⟩
            else
              .error "token is expired"
          else
            .error "signature is invalid"
      else
        .error "token is malformed" }

/-- The duration `time.Second`, in nanoseconds. -/
def Second : Int := 1000000000

/-- The call `t.Truncate(time.Second)`: `t` rounded down to a whole second. The package
function `jwt.NewNumericDate` truncates to its `TimePrecision`, which is one second. -/
def truncateToSecond (t : Int) : Int := t - t % Second

/-- The time validation of the package at instant `now`: not before `nbf`, and
before `exp`, for the claims that are present. -/
def withinWindow (claims : UserClaims) (now : Time) : Bool :=
  (match claims.NotBefore with
    | some nbf => decide ((nbf : Int) ≤ now)
    | none => true) &&
  (match claims.ExpiresAt with
    | some exp => decide ((now : Int) < exp)
    | none => true)

/-- A one-token instance of the package operations whose `NewNumericDate` truncates to
the second: it signs `signed` under the key `"s3cret"` as `"sample.token"`, and parses
that token back, asking the key function for the key and validating the time claims. -/
def secondsJWT (signed : UserClaims) : JWT :=
  { NewNumericDate := truncateToSecond
    SignedString := fun method claims key =>
      if method = SigningMethodHS256 ∧ claims = signed ∧ key = "s3cret" then
        .ok "sample.token"
      else
        .error "key is invalid"
    ParseWithClaims := fun tokenString kf now =>
      if tokenString = "sample.token" then
        match kf ⟨SigningMethodHS256, signed, false⟩ with
        | .error err => .error err
        | .ok key =>
          if key = "s3cret" then
            if withinWindow signed now then .ok ⟨SigningMethodHS256, signed, true⟩
            else .error "token is expired"
          else
            .error "signature is invalid"
      else
        .error "token is malformed" }

/-- A request body `{"id":"x","metadata":{"interview_status":"completed"}}`. -/
def overridingBody : RequestBody :=
  .json
    { ID := some "x", Candidate := none, Interviewer := none
      Metadata := some
        { InterviewTime := none, Duration := none, InterviewType := none
          InterviewStatus := some "completed", InterviewLink := none
          InterviewDate := none, InterviewTimeZone := none } }

/-- A request body `{"candidate":{"name":"A","email":"a@x"}}`. -/
def candidateBody : RequestBody :=
  .json
    { ID := none, Interviewer := none, Metadata := none
      Candidate := some { ID := none, Name := some "A", Email := some "a@x" } }

/-- A session that is already canceled. -/
def canceledSession : Session :=
  { (sampleSession []) with
    Metadata := { (sampleSession []).Metadata with InterviewStatus := "canceled" } }

/-! ## Average rating -/

theorem sumRatings_foldl_exact (xs : List Interviewer) (acc : Nat)
    (h : acc + (xs.map Interviewer.Rating).sum < 256) :
    xs.foldl (fun total interviewer => (total + interviewer.Rating) % 256) acc
      = acc + (xs.map Interviewer.Rating).sum := by
  induction xs generalizing acc with
  | nil => simp
  | cons x xs ih =>
    simp only [List.map_cons, List.sum_cons, List.foldl_cons] at h ⊢
    have hx : (acc + x.Rating) % 256 = acc + x.Rating := Nat.mod_eq_of_lt (by omega)
    rw [hx, ih (acc + x.Rating) (by omega)]
    omega

/-- Below the 8-bit range the code computes the floor of the mean: when the list is
non-empty, has fewer than 256 entries and its ratings add up to less than 256,
`calculateAverageRating` returns the sum divided by the count. -/
theorem calculateAverageRating_small (xs : List Interviewer) (hne : xs ≠ [])
    (hlen : xs.length < 256) (hsum : (xs.map Interviewer.Rating).sum < 256) :
    calculateAverageRating xs = .ret ((xs.map Interviewer.Rating).sum / xs.length) := by
  have hpos : xs.length ≠ 0 := by
    intro h0
    exact hne (List.length_eq_zero.mp h0)
  have hs : sumRatings xs = (xs.map Interviewer.Rating).sum := by
    have := sumRatings_foldl_exact xs 0 (by simpa using hsum)
    simpa [sumRatings] using this
  simp [calculateAverageRating, hpos, hs, Nat.mod_eq_of_lt hlen]

theorem calculateAverageRating_small_witness :
    calculateAverageRating [rated "a" 4, rated "b" 5] = .ret (9 / 2) :=
  calculateAverageRating_small [rated "a" 4, rated "b" 5] (by simp) (by simp)
    (by simp [rated])

/-- Claim C1, at a failing input: for two entries rated 200 and 200 the code returns 72
(the 8-bit accumulator wraps to 144), while the floor of the sum over the count is 200. -/
theorem calculateAverageRating_wraps :
    calculateAverageRating [rated "a" 200, rated "b" 200] = .ret 72 ∧
      (([rated "a" 200, rated "b" 200].map Interviewer.Rating).sum
        / [rated "a" 200, rated "b" 200].length) = 200 := by
  constructor
  · simp [calculateAverageRating, sumRatings, rated]
  · simp [rated]

/-- Whenever the length of a non-empty list is a multiple of 256, the divisor is 0 and
`calculateAverageRating` panics. -/
theorem calculateAverageRating_panics (xs : List Interviewer) (hne : xs.length ≠ 0)
    (hmod : xs.length % 256 = 0) : calculateAverageRating xs = .panic .divideByZero := by
  simp [calculateAverageRating, hne, hmod]

theorem calculateAverageRating_panics_witness :
    calculateAverageRating (List.replicate 512 (rated "b" 3)) = .panic .divideByZero :=
  calculateAverageRating_panics (List.replicate 512 (rated "b" 3))
    (by rw [List.length_replicate]; decide) (by rw [List.length_replicate])

/-- Claim C10, at a failing input: for a list of 256 entries the divisor
`uint8(len(interviewers))` is 0 and the division panics; a request body carrying such a
list makes `createSession` panic before it reaches the database. -/
theorem calculateAverageRating_divides_by_zero :
    (List.replicate 256 (rated "a" 1)).length % 256 = 0 ∧
      calculateAverageRating (List.replicate 256 (rated "a" 1)) = .panic .divideByZero ∧
      ∀ (sessionID nowRFC3339 today : String) (query : DbRequest → Option String),
        createSession sessionID nowRFC3339 today query
          { Header := [], Store := [], Response := none,
            Body := .json { ID := none, Candidate := none, Metadata := none,
                            Interviewer := some (List.replicate 256 (rated "a" 1)) } }
          = .panic .divideByZero := by
  have hlen : (List.replicate 256 (rated "a" 1)).length = 256 := List.length_replicate _ _
  have h : calculateAverageRating (List.replicate 256 (rated "a" 1)) = .panic .divideByZero := by
    unfold calculateAverageRating
    rw [hlen]
    rfl
  refine ⟨by rw [hlen], h, ?_⟩
  intro sessionID nowRFC3339 today query
  simp only [createSession, Context.Bind, SessionFields.decodeInto, Option.getD_some]
  rw [h]

/-! ## Session views -/

theorem reduceFeedback_foldl (xs acc : List Interviewer) :
    xs.foldl
      (fun feedback interviewer =>
        feedback ++ [{ ID := interviewer.ID, Name := "", Email := "", Rating := 0,
                       Feedback := interviewer.Feedback, InterviewNotes := "" }])
      acc
      = acc ++ xs.map (fun i => ({ ID := i.ID, Name := "", Email := "", Rating := 0,
                                   Feedback := i.Feedback, InterviewNotes := "" } : Interviewer)) := by
  induction xs generalizing acc with
  | nil => simp
  | cons x xs ih => simp [ih]

/-- The feedback list of the interviewer view has one entry per interviewer, in order,
keeping the id and the feedback only. -/
theorem reduceFeedback_eq_map (xs : List Interviewer) :
    reduceFeedback xs
      = xs.map (fun i => ({ ID := i.ID, Name := "", Email := "", Rating := 0,
                            Feedback := i.Feedback, InterviewNotes := "" } : Interviewer)) := by
  simpa [reduceFeedback] using reduceFeedback_foldl xs []

/-- Claim C3: for a role other than `"interviewer"`, the view of a session carries its id
and metadata with an empty feedback list, empty notes and rating 0, so every session
with the same id and metadata has the same view. -/
theorem ToView_other_role (s : Session) (role : String) (h : role ≠ "interviewer") :
    s.ToView role
        = .ret { ID := s.ID, Metadata := s.Metadata, Feedback := [], Notes := "", Rating := 0 } ∧
      ∀ s' : Session, s'.ID = s.ID → s'.Metadata = s.Metadata → s'.ToView role = s.ToView role := by
  constructor
  · simp [Session.ToView, h]
  · intro s' hid hmeta
    simp [Session.ToView, h, hid, hmeta]

theorem ToView_other_role_witness :
    "candidate" ≠ "interviewer" ∧
      (sampleSession [rated "a" 4]).ToView "candidate"
        = .ret { ID := "s-1", Metadata := (sampleSession []).Metadata, Feedback := [],
                 Notes := "", Rating := 0 } :=
  ⟨by decide, (ToView_other_role (sampleSession [rated "a" 4]) "candidate" (by decide)).1⟩

/-- Claim C4, at a failing input: for a session with one interviewer rated 4 the
interviewer view has rating 0, while `calculateAverageRating` of the list is 4; the
result of the call in `ToView` is not assigned to the view. -/
theorem ToView_interviewer_drops_rating :
    (sampleSession [rated "a" 4]).ToView "interviewer"
        = .ret { ID := "s-1", Metadata := (sampleSession []).Metadata,
                 Feedback := [rated "a" 0], Notes := "", Rating := 0 } ∧
      calculateAverageRating (sampleSession [rated "a" 4]).Interviewer = .ret 4 := by
  constructor
  · simp [Session.ToView, sampleSession, reduceFeedback, calculateAverageRating, sumRatings,
      rated, newSession]
  · simp [sampleSession, calculateAverageRating, sumRatings, rated]

/-- For every session whose interviewer list does not make the average panic, the
interviewer view has the reduced feedback list and rating 0. -/
theorem ToView_interviewer (s : Session) (r : Nat)
    (h : calculateAverageRating s.Interviewer = .ret r) :
    s.ToView "interviewer"
      = .ret { ID := s.ID, Metadata := s.Metadata, Notes := "", Rating := 0
               Feedback := s.Interviewer.map (fun i =>
                 ({ ID := i.ID, Name := "", Email := "", Rating := 0,
                    Feedback := i.Feedback, InterviewNotes := "" } : Interviewer)) } := by
  simp [Session.ToView, h, reduceFeedback_eq_map]

theorem ToView_interviewer_witness :
    (sampleSession []).ToView "interviewer"
      = .ret { ID := "s-1", Metadata := (sampleSession []).Metadata, Notes := "", Rating := 0
               Feedback := [] } :=
  ToView_interviewer (sampleSession []) 0 (by simp [calculateAverageRating, sampleSession])

/-! ## Temporal validity of claims -/

/-- Claim C5: for claims carrying `nbf` and `exp`, `UserClaims.Valid` and the expiry
re-check of `ValidateToken` both pass exactly when `nbf ≤ now < exp`; at `now ≥ exp` both
fail with their expired error, and at `now < nbf` (with `now < exp`) `Valid` fails with
the not-yet-valid error. -/
theorem temporal_check (uc : UserClaims) (nbf exp now : Int)
    (hnbf : uc.NotBefore = some nbf) (hexp : uc.ExpiresAt = some exp) :
    ((uc.Valid now = none ∧ ValidateToken.expiryCheck uc now = .ret (.ok uc))
        ↔ (nbf ≤ now ∧ now < exp)) ∧
      (uc.Valid now = none ↔ (nbf ≤ now ∧ now < exp)) ∧
      (ValidateToken.expiryCheck uc now = .ret (.ok uc) ↔ now < exp) ∧
      (exp ≤ now → uc.Valid now = some "token has expired" ∧
        ValidateToken.expiryCheck uc now = .ret (.error "token expired")) ∧
      (now < nbf → now < exp → uc.Valid now = some "token is not yet valid") := by
  have hv : uc.Valid now = none ↔ (nbf ≤ now ∧ now < exp) := by
    simp only [UserClaims.Valid, hnbf, hexp, Time.After]
    by_cases h1 : now < exp <;> by_cases h2 : now < nbf <;> simp [h1, h2]
    all_goals omega
  have hc : ValidateToken.expiryCheck uc now = .ret (.ok uc) ↔ now < exp := by
    simp only [ValidateToken.expiryCheck, hexp, Time.After]
    by_cases h1 : now < exp <;> simp [h1]
  refine ⟨?_, hv, hc, ?_, ?_⟩
  · rw [hv, hc]
    constructor
    · exact fun h => h.1
    · exact fun h => ⟨h, h.2⟩
  · intro h
    have h1 : ¬ now < exp := by omega
    simp [UserClaims.Valid, ValidateToken.expiryCheck, hexp, Time.After, h1]
  · intro h2 h1
    simp [UserClaims.Valid, hnbf, hexp, Time.After, h1, h2]

theorem temporal_check_witness :
    (windowClaims 10 20).Valid 15 = none ∧
      ValidateToken.expiryCheck (windowClaims 10 20) 15 = .ret (.ok (windowClaims 10 20)) :=
  ((temporal_check (windowClaims 10 20) 10 20 15 rfl rfl).1).mpr (by decide)

/-! ## Request gate -/

theorem TrimPrefix_append (pre rest : String) : TrimPrefix (pre ++ rest) pre = rest := by
  have h : pre.data.isPrefixOf (pre.data ++ rest.data) = true :=
    List.isPrefixOf_iff_prefix.mpr (List.prefix_append _ _)
  simp [TrimPrefix, String.data_append, h]

theorem TrimPrefix_unchanged (s pre : String) (h : ¬ pre.data <+: s.data) :
    TrimPrefix s pre = s := by
  have h' : ¬ pre.data.isPrefixOf s.data = true := fun hp => h (List.isPrefixOf_iff_prefix.mp hp)
  simp [TrimPrefix, h']

theorem RequireRole_loop_mem (user : UserClaims) (next : HandlerFunc) (c : Context)
    (roles : List String) (h : user.Role ∈ roles) :
    RequireRole.loop user next c roles = next c := by
  induction roles with
  | nil => simp at h
  | cons role roles ih =>
    by_cases hr : user.Role = role
    · simp [RequireRole.loop, hr]
    · have hmem : user.Role ∈ roles := by
        rcases List.mem_cons.mp h with h1 | h1
        · exact absurd h1 hr
        · exact h1
      simp [RequireRole.loop, hr, ih hmem]

theorem RequireRole_loop_not_mem (user : UserClaims) (next : HandlerFunc) (c : Context)
    (roles : List String) (h : user.Role ∉ roles) :
    RequireRole.loop user next c roles = .ret (c, some ErrForbidden) := by
  induction roles with
  | nil => simp [RequireRole.loop]
  | cons role roles ih =>
    have hr : user.Role ≠ role := fun e => h (by simp [e])
    have hmem : user.Role ∉ roles := fun m => h (List.mem_cons_of_mem _ m)
    simp [RequireRole.loop, hr, ih hmem]

/-- Claim C2: `RequireRole roles` hands the request to the next handler exactly when the
scope holds user claims under `"user"` whose role is a member of `roles`, and then with
the context unchanged; without claims (or with a value of another type) it returns the
401 error, and with claims whose role is no member of `roles` it returns the 403 error,
in both cases whatever the next handler is. -/
theorem RequireRole_spec (roles : List String) (c : Context) :
    ((∃ c', ∀ next : HandlerFunc, RequireRole roles next c = next c')
        ↔ ∃ user, c.Get "user" = some (.userClaims user) ∧ user.Role ∈ roles) ∧
      (∀ user, c.Get "user" = some (.userClaims user) → user.Role ∈ roles →
        ∀ next : HandlerFunc, RequireRole roles next c = next c) ∧
      ((∀ user, c.Get "user" ≠ some (.userClaims user)) →
        ∀ next : HandlerFunc, RequireRole roles next c = .ret (c, some ErrUnauthorized)) ∧
      (∀ user, c.Get "user" = some (.userClaims user) → user.Role ∉ roles →
        ∀ next : HandlerFunc, RequireRole roles next c = .ret (c, some ErrForbidden)) ∧
      ErrUnauthorized.Code = 401 ∧ ErrForbidden.Code = 403 := by
  have hyes : ∀ user, c.Get "user" = some (.userClaims user) → user.Role ∈ roles →
      ∀ next : HandlerFunc, RequireRole roles next c = next c := by
    intro user hu hm next
    simp [RequireRole, hu, RequireRole_loop_mem user next c roles hm]
  have hnone : (∀ user, c.Get "user" ≠ some (.userClaims user)) →
      ∀ next : HandlerFunc, RequireRole roles next c = .ret (c, some ErrUnauthorized) := by
    intro hno next
    unfold RequireRole
    split
    · next user hu => exact absurd hu (hno user)
    · rfl
  have hforbid : ∀ user, c.Get "user" = some (.userClaims user) → user.Role ∉ roles →
      ∀ next : HandlerFunc, RequireRole roles next c = .ret (c, some ErrForbidden) := by
    intro user hu hm next
    simp [RequireRole, hu, RequireRole_loop_not_mem user next c roles hm]
  refine ⟨⟨?_, ?_⟩, hyes, hnone, hforbid, rfl, rfl⟩
  · rintro ⟨c', hc'⟩
    have hp := hc' (fun _ => .panic .divideByZero)
    by_cases hex : ∃ user, c.Get "user" = some (.userClaims user)
    · obtain ⟨user, hu⟩ := hex
      by_cases hm : user.Role ∈ roles
      · exact ⟨user, hu, hm⟩
      · rw [hforbid user hu hm] at hp
        exact absurd hp (by simp)
    · have hno : ∀ user, c.Get "user" ≠ some (.userClaims user) := fun user hu => hex ⟨user, hu⟩
      rw [hnone hno] at hp
      exact absurd hp (by simp)
  · rintro ⟨user, hu, hm⟩
    exact ⟨c, hyes user hu hm⟩

theorem RequireRole_spec_witness :
    (∀ next : HandlerFunc,
        RequireRole ["admin", "interviewer"] next
            (sampleContext [] [("user", .userClaims (windowClaims 10 20))])
          = next (sampleContext [] [("user", .userClaims (windowClaims 10 20))])) ∧
      (∀ next : HandlerFunc,
        RequireRole [] next (sampleContext [] [("user", .userClaims (windowClaims 10 20))])
          = .ret (sampleContext [] [("user", .userClaims (windowClaims 10 20))],
                  some ErrForbidden)) ∧
      (∀ next : HandlerFunc,
        RequireRole ["interviewer"] next (sampleContext [] [("user", .other "claims")])
          = .ret (sampleContext [] [("user", .other "claims")], some ErrUnauthorized)) :=
  ⟨(RequireRole_spec ["admin", "interviewer"]
      (sampleContext [] [("user", .userClaims (windowClaims 10 20))])).2.1
      (windowClaims 10 20) (by decide) (by decide),
   (RequireRole_spec [] (sampleContext [] [("user", .userClaims (windowClaims 10 20))])).2.2.2.1
      (windowClaims 10 20) (by decide) (by decide),
   (RequireRole_spec ["interviewer"] (sampleContext [] [("user", .other "claims")])).2.2.1
      (by intro user h; simp [sampleContext, Context.Get, List.lookup] at h)⟩

/-- Claim C7: `AuthMiddleware` hands the request to the next handler exactly when the
`Authorization` header is non-empty and `ValidateToken` succeeds on the header value
with one leading `"Bearer "` removed (the value itself when it does not start so); it
then passes on the context with the returned claims stored under `"user"`. With an
empty or missing header it writes status 401 with body
`{"error":"No authorization token provided"}`, and when validation returns an error it
returns the 401 error; in both cases the result does not depend on the next handler and
the scope is unchanged. -/
theorem AuthMiddleware_spec (jwt : JWT) (secretKey : String) (now : Time) (c : Context) :
    ((∃ c', ∀ next : HandlerFunc, AuthMiddleware jwt secretKey now next c = next c')
        ↔ (c.HeaderGet "Authorization" ≠ "" ∧
            ∃ claims, ValidateToken jwt secretKey now
              (TrimPrefix (c.HeaderGet "Authorization") "Bearer ") = .ret (.ok claims))) ∧
      (∀ claims, c.HeaderGet "Authorization" ≠ "" →
        ValidateToken jwt secretKey now
          (TrimPrefix (c.HeaderGet "Authorization") "Bearer ") = .ret (.ok claims) →
        (∀ next : HandlerFunc, AuthMiddleware jwt secretKey now next c
          = next (c.Set "user" (.userClaims claims))) ∧
        (c.Set "user" (.userClaims claims)).Get "user" = some (.userClaims claims)) ∧
      (c.HeaderGet "Authorization" = "" →
        ∀ next : HandlerFunc, AuthMiddleware jwt secretKey now next c
          = .ret ({ c with
                    Response := some ⟨401, .object [("error", "No authorization token provided")]⟩ },
                  none)) ∧
      (c.Header.lookup "Authorization" = none → c.HeaderGet "Authorization" = "") ∧
      (∀ err, c.HeaderGet "Authorization" ≠ "" →
        ValidateToken jwt secretKey now
          (TrimPrefix (c.HeaderGet "Authorization") "Bearer ") = .ret (.error err) →
        ∀ next : HandlerFunc, AuthMiddleware jwt secretKey now next c
          = .ret (c, some ErrUnauthorized)) ∧
      ErrUnauthorized.Code = 401 ∧
      (∀ rest : String, TrimPrefix ("Bearer " ++ rest) "Bearer " = rest) ∧
      (∀ s : String, ¬ "Bearer ".data <+: s.data → TrimPrefix s "Bearer " = s) := by
  have hok : ∀ claims, c.HeaderGet "Authorization" ≠ "" →
      ValidateToken jwt secretKey now
        (TrimPrefix (c.HeaderGet "Authorization") "Bearer ") = .ret (.ok claims) →
      ∀ next : HandlerFunc, AuthMiddleware jwt secretKey now next c
        = next (c.Set "user" (.userClaims claims)) := by
    intro claims hh hv next
    simp [AuthMiddleware, hh, hv]
  have hempty : c.HeaderGet "Authorization" = "" →
      ∀ next : HandlerFunc, AuthMiddleware jwt secretKey now next c
        = .ret ({ c with
                  Response := some ⟨401, .object [("error", "No authorization token provided")]⟩ },
                none) := by
    intro hh next
    simp [AuthMiddleware, hh, Context.JSON]
  have herr : ∀ err, c.HeaderGet "Authorization" ≠ "" →
      ValidateToken jwt secretKey now
        (TrimPrefix (c.HeaderGet "Authorization") "Bearer ") = .ret (.error err) →
      ∀ next : HandlerFunc, AuthMiddleware jwt secretKey now next c
        = .ret (c, some ErrUnauthorized) := by
    intro err hh hv next
    simp [AuthMiddleware, hh, hv]
  have hpanic : ∀ p, c.HeaderGet "Authorization" ≠ "" →
      ValidateToken jwt secretKey now
        (TrimPrefix (c.HeaderGet "Authorization") "Bearer ") = .panic p →
      ∀ next : HandlerFunc, AuthMiddleware jwt secretKey now next c = .panic p := by
    intro p hh hv next
    simp [AuthMiddleware, hh, hv]
  refine ⟨⟨?_, ?_⟩, ?_, hempty, ?_, herr, rfl, ?_, ?_⟩
  · rintro ⟨c', hc'⟩
    have h1 := hc' (fun _ => .panic .divideByZero)
    have h2 := hc' (fun _ => .panic .nilDereference)
    by_cases hh : c.HeaderGet "Authorization" = ""
    · rw [hempty hh] at h1
      exact absurd h1 (by simp)
    · refine ⟨hh, ?_⟩
      cases hv : ValidateToken jwt secretKey now
          (TrimPrefix (c.HeaderGet "Authorization") "Bearer ") with
      | panic p =>
        rw [hpanic p hh hv] at h1 h2
        exact absurd (h1.symm.trans h2) (by simp)
      | ret r =>
        cases r with
        | error err =>
          rw [herr err hh hv] at h1
          exact absurd h1 (by simp)
        | ok claims => exact ⟨claims, rfl⟩
  · rintro ⟨hh, claims, hv⟩
    exact ⟨_, hok claims hh hv⟩
  · intro claims hh hv
    exact ⟨hok claims hh hv, by simp [Context.Get, Context.Set, List.lookup]⟩
  · intro hnone
    simp [Context.HeaderGet, hnone]
  · intro rest
    exact TrimPrefix_append "Bearer " rest
  · intro s hs
    exact TrimPrefix_unchanged s "Bearer " hs

theorem AuthMiddleware_spec_witness :
    ∀ next : HandlerFunc,
      AuthMiddleware sampleJWT "s3cret" 200 next
          (sampleContext [("Authorization", "Bearer sample.token")] [])
        = next ((sampleContext [("Authorization", "Bearer sample.token")] []).Set "user"
            (.userClaims (windowClaims 100 (100 + 24 * Hour)))) :=
  ((AuthMiddleware_spec sampleJWT "s3cret" 200
      (sampleContext [("Authorization", "Bearer sample.token")] [])).2.1
    (windowClaims 100 (100 + 24 * Hour)) (by decide) (by rfl)).1

/-! ## Token round trip -/

/-- Whatever the package does, a token that `ValidateToken` accepts at instant `now`
carries an expiry time later than `now`: the re-check of lines 80-87 enforces it. -/
theorem ValidateToken_ok_before_exp (jwt : JWT) (secretKey : String) (now : Int)
    (T : String) (claims : UserClaims)
    (h : ValidateToken jwt secretKey now T = .ret (.ok claims)) :
    ∃ exp : Int, claims.ExpiresAt = some exp ∧ now < exp := by
  unfold ValidateToken at h
  split at h
  · simp at h
  · split at h
    · simp at h
    · next token _ =>
      split at h
      · simp at h
      · unfold ValidateToken.expiryCheck at h
        split at h
        · simp at h
        · next exp hexp =>
          split at h
          · simp at h
          · next hafter =>
            simp only [Go.ret.injEq, Except.ok.injEq] at h
            subst h
            refine ⟨exp, hexp, ?_⟩
            simpa [Time.After] using hafter

theorem ValidateToken_ok_before_exp_witness :
    ∃ exp : Int, (windowClaims 100 (100 + 24 * Hour)).ExpiresAt = some exp ∧ 5000 < exp :=
  ValidateToken_ok_before_exp sampleJWT "s3cret" 5000 "sample.token"
    (windowClaims 100 (100 + 24 * Hour)) (by rfl)

/-- The instance `secondsJWT` parses what it signs: a token it signed under HS256 with a
key parses, under a key function that returns that key for it and at an instant inside
the claims' window, to a valid token with the signed claims. -/
theorem secondsJWT_parses_signed (signed claims : UserClaims) (key token : String)
    (kf : Token → Except String String) (t nbf exp : Int)
    (hsign : (secondsJWT signed).SignedString SigningMethodHS256 claims key = .ok token)
    (hkf : kf ⟨SigningMethodHS256, claims, false⟩ = .ok key)
    (hnbf : claims.NotBefore = some nbf) (hexp : claims.ExpiresAt = some exp)
    (hle : nbf ≤ t) (hlt : t < exp) :
    (secondsJWT signed).ParseWithClaims token kf t = .ok ⟨SigningMethodHS256, claims, true⟩ := by
  have hs : claims = signed ∧ key = "s3cret" ∧ token = "sample.token" := by
    simp only [secondsJWT] at hsign
    split at hsign
    · next hc =>
      refine ⟨hc.2.1, hc.2.2, ?_⟩
      cases hsign
      rfl
    · cases hsign
  obtain ⟨rfl, rfl, rfl⟩ := hs
  simp [secondsJWT, hkf, withinWindow, hnbf, hexp, hle, hlt]

theorem secondsJWT_parses_signed_witness :
    (secondsJWT (windowClaims 2000000000 (1000000000 + 24 * Hour))).ParseWithClaims
        "sample.token" (keyFunc "s3cret") 5000000000
      = .ok ⟨SigningMethodHS256, windowClaims 2000000000 (1000000000 + 24 * Hour), true⟩ :=
  secondsJWT_parses_signed (windowClaims 2000000000 (1000000000 + 24 * Hour))
    (windowClaims 2000000000 (1000000000 + 24 * Hour)) "s3cret" "sample.token"
    (keyFunc "s3cret") 5000000000 2000000000 (1000000000 + 24 * Hour)
    (by rfl) (by rfl) (by rfl) (by rfl) (by decide) (by decide)

/-- Claim C8, at a failing input: for the body
`{"id":"x","metadata":{"interview_status":"completed"}}`, which binds, `createSession`
answers 201 with, and inserts, a session whose id is `"x"` and whose status is
`"completed"`, while its link ends in the generated identifier `"fresh"`. -/
theorem createSession_body_overrides :
    ∃ r : Created,
      createSession "fresh" "2024-01-01T10:00:00Z" "2024-01-01" (fun _ => none)
          { Header := [], Body := overridingBody, Store := [], Response := none } = .ret r ∧
      ∃ session : Session,
        r.ctx.Response = some ⟨201, .session session⟩ ∧
        r.requests = [⟨.insertSession, insertArgs session 0⟩] ∧
        r.worker = some session ∧
        session.ID = "x" ∧
        session.Metadata.InterviewStatus = "completed" ∧
        session.Metadata.InterviewLink = "http://localhost:8080/api/session/fresh" := by
  refine ⟨_, rfl, _, rfl, rfl, rfl, rfl, rfl, ?_⟩
  decide

/-- A body that binds and carries none of the keys `id`, `interview_status` and
`interview_link` leaves the generated values in place: when the insert succeeds, the
session returned with 201 and inserted has the generated id, status `"created"`, and the
link `http://localhost:8080/api/session/` followed by its own id. -/
theorem createSession_generated (sessionID nowRFC3339 today : String)
    (query : DbRequest → Option String) (c : Context) (session : Session) (rating : Nat)
    (hbind : c.Bind (newSession sessionID nowRFC3339 today) = .ok session)
    (hid : ∀ fields, c.Body = .json fields → fields.ID = none)
    (hmeta : ∀ fields m, c.Body = .json fields → fields.Metadata = some m →
      m.InterviewStatus = none ∧ m.InterviewLink = none)
    (hrating : calculateAverageRating session.Interviewer = .ret rating)
    (hquery : query ⟨.insertSession, insertArgs session rating⟩ = none) :
    createSession sessionID nowRFC3339 today query c
        = .ret { ctx := { c with Response := some ⟨201, .session session⟩ }, err := none
                 requests := [⟨.insertSession, insertArgs session rating⟩]
                 worker := some session } ∧
      session.ID = sessionID ∧
      session.Metadata.InterviewStatus = "created" ∧
      session.Metadata.InterviewLink = "http://localhost:8080/api/session/" ++ session.ID := by
  have hrun : createSession sessionID nowRFC3339 today query c
      = .ret { ctx := { c with Response := some ⟨201, .session session⟩ }, err := none
               requests := [⟨.insertSession, insertArgs session rating⟩]
               worker := some session } := by
    simp [createSession, hbind, hrating, hquery, Context.JSON]
  refine ⟨hrun, ?_⟩
  cases hb : c.Body with
  | empty =>
    simp only [Context.Bind, hb, Except.ok.injEq] at hbind
    subst hbind
    simp [newSession]
  | malformed err => simp [Context.Bind, hb] at hbind
  | json fields =>
    simp only [Context.Bind, hb, Except.ok.injEq] at hbind
    have h1 := hid fields hb
    subst hbind
    cases hm : fields.Metadata with
    | none => simp [SessionFields.decodeInto, h1, hm, newSession]
    | some m =>
      obtain ⟨h2, h3⟩ := hmeta fields m hb hm
      simp [SessionFields.decodeInto, MetadataFields.decodeInto, h1, hm, h2, h3, newSession]

theorem createSession_generated_witness :
    (createSession "fresh" "2024-01-01T10:00:00Z" "2024-01-01" (fun _ => none)
        { Header := [], Body := candidateBody, Store := [], Response := none }
      = .ret
          { ctx :=
              { Header := [], Body := candidateBody, Store := []
                Response := some ⟨201, .session
                  { (newSession "fresh" "2024-01-01T10:00:00Z" "2024-01-01") with
                    Candidate := { ID := "", Name := "A", Email := "a@x" } }⟩ }
            err := none
            requests := [⟨.insertSession, insertArgs
              { (newSession "fresh" "2024-01-01T10:00:00Z" "2024-01-01") with
                Candidate := { ID := "", Name := "A", Email := "a@x" } } 0⟩]
            worker := some
              { (newSession "fresh" "2024-01-01T10:00:00Z" "2024-01-01") with
                Candidate := { ID := "", Name := "A", Email := "a@x" } } }) :=
  (createSession_generated "fresh" "2024-01-01T10:00:00Z" "2024-01-01" (fun _ => none)
    { Header := [], Body := candidateBody, Store := [], Response := none }
    { (newSession "fresh" "2024-01-01T10:00:00Z" "2024-01-01") with
      Candidate := { ID := "", Name := "A", Email := "a@x" } }
    0 (by rfl)
    (by intro fields h; simp only [candidateBody, RequestBody.json.injEq] at h; subst h; rfl)
    (by
      intro fields m h hm
      simp only [candidateBody, RequestBody.json.injEq] at h
      subst h
      simp at hm)
    (by rfl) (by rfl)).1

/-! ## Lifecycle worker -/

/-- Claim C9, as stated, fails: a worker started on a session that is already canceled
sets its status to `"completed"` when the timer fires, so a terminal status is not kept
under every worker event. -/
theorem worker_overwrites_terminal_status :
    ¬ ∀ (s : Session) (sig : Signal),
        (s.Metadata.InterviewStatus = "completed" ∨ s.Metadata.InterviewStatus = "canceled") →
        ((WorkerState.spawn s).step sig).session.Metadata.InterviewStatus
          = s.Metadata.InterviewStatus := by
  intro h
  have h1 := h canceledSession .timer (Or.inr rfl)
  revert h1
  decide

/-- Claim C9, amended: whatever the status of the session the worker is started on, a
timer expiry sets it to `"completed"` and a cancellation to `"canceled"` (so `created`
moves to `completed`, respectively `canceled`), leaving the rest of the session as it
was; on the first event the worker sends exactly one status update, for that status and
that session, and stops; every later event leaves the stopped worker, and so the status
it wrote, unchanged. -/
theorem worker_lifecycle (s : Session) (sig : Signal) (later : List Signal) :
    ((WorkerState.spawn s).step .timer).session
        = { s with Metadata := { s.Metadata with InterviewStatus := "completed" } } ∧
      ((WorkerState.spawn s).step .done).session
        = { s with Metadata := { s.Metadata with InterviewStatus := "canceled" } } ∧
      ((WorkerState.spawn s).step sig).running = false ∧
      ((WorkerState.spawn s).step sig).requests
        = [Worker.updateSessionStatus s.ID
            ((WorkerState.spawn s).step sig).session.Metadata.InterviewStatus] ∧
      (((WorkerState.spawn s).step sig).session.Metadata.InterviewStatus = "completed" ∨
        ((WorkerState.spawn s).step sig).session.Metadata.InterviewStatus = "canceled") ∧
      (WorkerState.spawn s).run (sig :: later) = (WorkerState.spawn s).step sig := by
  have hstop : ∀ (w : WorkerState), w.running = false → ∀ sigs : List Signal, w.run sigs = w := by
    intro w hw sigs
    induction sigs with
    | nil => rfl
    | cons x xs ih =>
      have hx : w.step x = w := by simp [WorkerState.step, hw]
      simpa [WorkerState.run, hx] using ih
  have hrun : ((WorkerState.spawn s).step sig).running = false := by
    simp [WorkerState.step, WorkerState.spawn]
  refine ⟨by simp [WorkerState.step, WorkerState.spawn, Worker.Start],
    by simp [WorkerState.step, WorkerState.spawn, Worker.Start], hrun, ?_, ?_, ?_⟩
  · cases sig <;> simp [WorkerState.step, WorkerState.spawn, Worker.Start]
  · cases sig <;> simp [WorkerState.step, WorkerState.spawn, Worker.Start]
  · have := hstop _ hrun later
    simpa [WorkerState.run] using this

end Interview
